import Mathlib

/-!
# Student health risk-scoring and ledger service: a shallow embedding

This file embeds the core of `HackathonProject1_updated.py` (risk scoring,
alert sealing, roster ledger, history buffer, analyze endpoint) in Lean and
proves the specified properties about it.

Modelling conventions:
* Python floats (model percentages) are modelled as exact rationals `ℚ`;
  every operation the properties mention (comparison, `+`, `min`, `max`)
  is exact on the values involved.
* Python dicts keyed by label are modelled as association lists
  (`List (String × ℚ)`) with dict-assignment semantics (`dictSet`).
* Python string helpers (`str.strip`, `str.lower`, `str.split`, `in`)
  are implemented structurally over `List Char` so that all definitions
  evaluate by kernel reduction; they agree with the Python semantics on
  the ASCII data the program manipulates.
* The three text classifiers are external collaborators (per the design,
  opaque scoring functions): they enter as parameters (score maps for the
  whole text, plus a per-segment suicidal scoring function `segScore`).
* File IO (roster CSV read/write) is modelled as explicit state passing of
  the parsed table; integer and boolean cells round-trip exactly through
  the CSV encoding used by the program, so the parsed table is the state.
-/

namespace StudentHealth

/-! ## String utilities (structural models of the Python primitives) -/

/-- The whitespace characters of Python `str.strip()` / `str.split()`
relevant to this program (ASCII whitespace). -/
def pyWS (c : Char) : Bool :=
  c = ' ' || c = '\t' || c = '\n' || c = '\r' || c = '\x0b' || c = '\x0c'

/-- Model of Python `str.strip()`. -/
def strTrim (s : String) : String :=
  ⟨((s.data.dropWhile pyWS).reverse.dropWhile pyWS).reverse⟩

/-- Lower-case a single ASCII character, as Python `str.lower()` does. -/
def charLower (c : Char) : Char :=
  if 'A' ≤ c ∧ c ≤ 'Z' then Char.ofNat (c.toNat + 32) else c

/-- Model of Python `str.lower()`. -/
def strLower (s : String) : String := ⟨s.data.map charLower⟩

/-- Substring occurrence on character lists (`containsList pat l` holds when
`pat` occurs contiguously in `l`). -/
def containsList (pat : List Char) : List Char → Bool
  | [] => pat.isEmpty
  | c :: t => pat.isPrefixOf (c :: t) || containsList pat t

/-- Model of Python `pat in s` for strings. -/
def strContains (s pat : String) : Bool := containsList pat.data s.data

/-- Split a character list at every character satisfying `p`, keeping empty
pieces (the callers below discard short pieces anyway). -/
def splitChars (p : Char → Bool) : List Char → List (List Char)
  | [] => [[]]
  | c :: t =>
    let rest := splitChars p t
    if p c then [] :: rest
    else
      match rest with
      | [] => [[c]]
      | seg :: more => (c :: seg) :: more

/-- Model of splitting a string at every delimiter character. -/
def strSplit (p : Char → Bool) (s : String) : List String :=
  (splitChars p s.data).map (fun l => ⟨l⟩)

/-- Model of Python `len(text.split())` restricted to the tokens that remain
non-empty after stripping (`_word_count`). -/
def word_count (text : String) : Nat :=
  ((strSplit pyWS text).filter (fun t => t ≠ "")).length

/-! ## Score maps -/

/-- A classifier percentage. -/
abbrev Score := ℚ

/-- A label → percentage mapping (Python dict, association-list model). -/
abbrev ScoreMap := List (String × Score)

/-- Model of `_get_score_case_insensitive`: first case-insensitive match wins,
default `0`. -/
def get_score_case_insensitive (scores : ScoreMap) (label : String) : Score :=
  match scores.find? (fun kv => strLower kv.1 = strLower label) with
  | some kv => kv.2
  | none => 0

/-- Exact-key dict read with default `0` (Python `dict.get(key, 0.0)`). -/
def get_score_exact (scores : ScoreMap) (key : String) : Score :=
  match scores.find? (fun kv => kv.1 = key) with
  | some kv => kv.2
  | none => 0

/-- Python dict assignment `scores[key] = value`: replace in place when the
exact key is present, append otherwise. -/
def dictSet (scores : ScoreMap) (key : String) (value : Score) : ScoreMap :=
  if scores.any (fun kv => kv.1 = key) then
    scores.map (fun kv => if kv.1 = key then (kv.1, value) else kv)
  else scores ++ [(key, value)]

/-- The label a case-insensitive update targets: the first key matching
`label` case-insensitively, else `label` itself
(`_assign_score_case_insensitive` / the `next(...)` idiom). -/
def ci_target_label (scores : ScoreMap) (label : String) : String :=
  match scores.find? (fun kv => strLower kv.1 = strLower label) with
  | some kv => kv.1
  | none => label

/-- Model of `_assign_score_case_insensitive`: update preserving original casing. -/
def assign_score_case_insensitive (scores : ScoreMap) (label : String)
    (value : Score) : ScoreMap :=
  dictSet scores (ci_target_label scores label) value

/-! ## Suicidality keyword and pattern lists (verbatim from the source) -/

def MENTAL_SUICIDAL_KEYWORDS : List String :=
  ["suicide", "suicidal", "kill myself", "end my life", "want to die",
   "wish i was dead", "wish i were dead", "take my life", "never wake up"]

def MENTAL_SUICIDAL_SEMANTIC_PATTERNS : List String :=
  ["don\x27t trust myself at night", "don\x27t trust myself overnight",
   "sleep and not wake", "never waking up", "hospitalized so i can rest",
   "get hospitalized so i can rest", "be gone and not come back",
   "stepping into traffic", "walk into traffic", "walk in front of a car",
   "avoid crossing streets", "intrusive picture of",
   "don\x27t trust myself near cars", "don\x27t trust myself near bridges"]

/-- Whether the lower-cased text contains an explicit suicidal keyword
(the `mentions_suicide` computation of `_boost_suicidal_score`). -/
def mentions_suicide_in (text_lower : String) : Bool :=
  MENTAL_SUICIDAL_KEYWORDS.any (fun k => strContains text_lower k)

/-- The semantic patterns occurring in the lower-cased text
(the `patterns_hit` computation of `_boost_suicidal_score`). -/
def patterns_hit_in (text_lower : String) : List String :=
  MENTAL_SUICIDAL_SEMANTIC_PATTERNS.filter (fun p => strContains text_lower p)

/-! ## Segmentation (`_segment_text`, `_max_suicidal_over_segments`) -/

/-- The delimiter set of the segmentation regex.  The source uses the raw
pattern `r"[\\.;!?\\n]+"`; inside a character class `\\` is an escaped
literal backslash, so the class matches a backslash, `.`, `;`, `!`, `?`,
and the letter `n` (not a newline).  We reproduce that set faithfully. -/
def segDelim (c : Char) : Bool :=
  c = '\\' || c = '.' || c = ';' || c = '!' || c = '?' || c = 'n'

/-- Model of `_segment_text`: split on the delimiter class, strip each piece, keep
pieces of length at least 20.  (The regex `+` collapses delimiter runs; that
only changes which empty pieces appear, and all of them fail the length
filter, so splitting at single delimiters is equivalent.) -/
def segment_text (text : String) : List String :=
  if text = "" then []
  else ((strSplit segDelim text).map strTrim).filter (fun s => 20 ≤ s.length)

/-- Model of `_max_suicidal_over_segments`: the running maximum of the per-segment
suicidal percentage, `none` when no segment survives.  The per-segment
classifier call is the external scoring function `segScore`. -/
def max_suicidal_over_segments (segScore : String → Score) (text : String) :
    Option Score :=
  (segment_text text).foldl
    (fun acc seg =>
      match acc with
      | none => some (segScore seg)
      | some m => some (max m (segScore seg)))
    none

/-- Model of `_get_label_index_case_insensitive` on the model vocabulary (id2label in
index order): the first index whose label matches case-insensitively. -/
def get_label_index_case_insensitive : List String → String → Option Nat
  | [], _ => none
  | l :: rest, target =>
    if strLower l = strLower target then some 0
    else (get_label_index_case_insensitive rest target).map (· + 1)

/-- The segment-max replacement step of `analyze_student_text`
(source lines 1743-1754): when the vocabulary has a "suicidal" label,
recompute the suicidal probability per segment and replace the whole-text
value by the segment maximum when larger.  Returns the updated mental-health
scores and `chunk_max`. -/
def apply_segment_max (mentalLabels : List String) (mental_scores : ScoreMap)
    (segScore : String → Score) (text : String) : ScoreMap × Option Score :=
  match get_label_index_case_insensitive mentalLabels "suicidal" with
  | none => (mental_scores, none)
  | some idx =>
    match max_suicidal_over_segments segScore text with
    | none => (mental_scores, none)
    | some chunk_max =>
      let suicidal_label := ci_target_label mental_scores (mentalLabels.getD idx "")
      let current := get_score_exact mental_scores suicidal_label
      (dictSet mental_scores suicidal_label (max current chunk_max), some chunk_max)

/-! ## Rule-based suicidality boosting (`_boost_suicidal_score`) -/

/-- The pre-cap boosted value: the raw score raised by every applicable rule
(source lines 1342-1358). -/
def boost_rule_candidate (mental_scores emotion_scores : ScoreMap)
    (text_lower : String) : Score :=
  let suicidal_base := get_score_case_insensitive mental_scores "suicidal"
  let depression_score := get_score_case_insensitive mental_scores "depression"
  let stress_score := get_score_case_insensitive mental_scores "stress"
  let sadness_score := get_score_case_insensitive emotion_scores "sadness"
  let fear_score := get_score_case_insensitive emotion_scores "fear"
  let co_occurs := (60 ≤ depression_score) ∨ (70 ≤ stress_score) ∨
    (60 ≤ sadness_score) ∨ (70 ≤ fear_score)
  let b1 := if patterns_hit_in text_lower ≠ [] ∧ co_occurs then
      max suicidal_base (suicidal_base + 10) else suicidal_base
  let b2 := if 70 ≤ depression_score ∧ 70 ≤ sadness_score then
      max b1 (suicidal_base + 15) else b1
  if 80 ≤ stress_score ∧ 5 < suicidal_base then max b2 40 else b2

/-- Result record of `_boost_suicidal_score` (the mutated score dict plus the
returned tuple). -/
structure BoostResult where
  scores : ScoreMap
  boosted : Score
  reasons : List String
  mentions_suicide : Bool
  raw : Score
  patterns_hit : List String
deriving DecidableEq, Repr

/-- Model of `_boost_suicidal_score`: rule boosts followed by the cap
`boosted = max(raw, min(60, pre-cap))`, written back into the score dict. -/
def boost_suicidal_score (mental_scores emotion_scores : ScoreMap)
    (text_lower : String) : BoostResult :=
  let suicidal_base := get_score_case_insensitive mental_scores "suicidal"
  let depression_score := get_score_case_insensitive mental_scores "depression"
  let stress_score := get_score_case_insensitive mental_scores "stress"
  let sadness_score := get_score_case_insensitive emotion_scores "sadness"
  let fear_score := get_score_case_insensitive emotion_scores "fear"
  let co_occurs := (60 ≤ depression_score) ∨ (70 ≤ stress_score) ∨
    (60 ≤ sadness_score) ∨ (70 ≤ fear_score)
  let reasons :=
    (if patterns_hit_in text_lower ≠ [] ∧ co_occurs then
      ["Semantic suicidality cues with distress (+10 boost)."] else []) ++
    (if 70 ≤ depression_score ∧ 70 ≤ sadness_score then
      ["Depression and sadness both high (+15 boost)."] else []) ++
    (if 80 ≤ stress_score ∧ 5 < suicidal_base then
      ["Stress high and suicidal score above 5% (min clamp to 40)."] else [])
  let boosted := max suicidal_base
    (min 60 (boost_rule_candidate mental_scores emotion_scores text_lower))
  { scores := assign_score_case_insensitive mental_scores "suicidal" boosted
    boosted := boosted
    reasons := reasons
    mentions_suicide := mentions_suicide_in text_lower
    raw := suicidal_base
    patterns_hit := patterns_hit_in text_lower }

/-! ## Alert sealing service (`_should_encrypt_alert`, `_encrypt_alert_text`) -/

/-- The two artifact locations and the creation timestamp returned by a
successful sealing.  Key generation, encryption and the artifact writes are
IO; their observable outcome (the locations record) enters as the parameter
`sealFn` below. -/
structure AlertArtifacts where
  ciphertext_path : String
  key_path : String
  created_at : String
deriving DecidableEq, Repr

/-- Model of `_should_encrypt_alert`: encryption must be enabled by configuration and
the Fernet primitive importable. -/
def should_encrypt_alert (alertEnabled fernetAvailable : Bool) : Bool :=
  if !alertEnabled then false
  else if !fernetAvailable then false
  else true

/-- Model of `_encrypt_alert_text`: `none` when sealing is unavailable, otherwise the
artifact record for the text. -/
def encrypt_alert_text (alertEnabled fernetAvailable : Bool)
    (sealFn : String → AlertArtifacts) (text : String) : Option AlertArtifacts :=
  if should_encrypt_alert alertEnabled fernetAvailable then some (sealFn text)
  else none

/-- The `alert_metadata` dict attached to a flagged analysis (artifact
locations plus raw/boosted/segment-max provenance; the numeric fields are
stored by the program as decimal strings, modelled here by their values). -/
structure AlertMetadata where
  artifacts : AlertArtifacts
  suicidal_raw : Score
  suicidal_boosted : Score
  suicidal_chunk_max : Option Score
  boost_reasons : List String
deriving DecidableEq, Repr

/-! ## The analysis pipeline (`analyze_student_text`) -/

/-- Process-wide configuration and the external classifier collaborators of
one analysis. `threshold` models `MENTAL_ACTIVE_THRESHOLD` (already clamped
to [0,100] on load), `fallbackThreshold` models
`SUICIDAL_FALLBACK_THRESHOLD`. -/
structure AnalyzeEnv where
  mentalLabels : List String
  segScore : String → Score
  multiLabel : Bool
  threshold : Score
  fallbackThreshold : Score
  alertEnabled : Bool
  fernetAvailable : Bool
  sealFn : String → AlertArtifacts

/-- The response dict of `analyze_student_text`: the three score maps, the
flag map (present only in multi-label mode) and the alert record (present
only when sealing produced one). -/
structure AnalysisResponse where
  academic_stress : ScoreMap
  mental_health : ScoreMap
  emotions : ScoreMap
  mental_health_flags : Option ScoreMap
  alert_metadata : Option AlertMetadata
deriving DecidableEq, Repr

/-- The key the suicidal force-inclusion writes to: the first key of the
score dict matching "suicidal" case-insensitively, else the literal
`"suicidal"` (the `next(...)` idiom at source lines 1779-1782). -/
def suicidal_label_of (scores : ScoreMap) : String :=
  ci_target_label scores "suicidal"

/-- The multi-label flag construction of `analyze_student_text` (source
lines 1772-1788): every label at or above the active threshold, then the
suicidal entry forced in when the boosted score clears the threshold or when
depression reaches the fallback threshold and the text mentions suicide. -/
def build_mental_flags (threshold fallbackThreshold : Score)
    (mental₂ : ScoreMap) (mentions : Bool) (boosted : Score) : ScoreMap :=
  let flags₀ := mental₂.filter (fun kv => threshold ≤ kv.2)
  let depression_score := get_score_case_insensitive mental₂ "depression"
  let suicidal_label := suicidal_label_of mental₂
  if threshold ≤ boosted then dictSet flags₀ suicidal_label boosted
  else if fallbackThreshold ≤ depression_score ∧ mentions then
    dictSet flags₀ suicidal_label
      (max boosted (max depression_score threshold))
  else flags₀

/-- Model of `analyze_student_text`, with the three whole-text classifier outputs as
inputs (the classifiers are external collaborators).  Mirrors source lines
1743-1810: segment-max replacement, rule boosting, thresholded flag set with
the suicidal force-inclusion, and conditional alert sealing. -/
def analyze_student_text (env : AnalyzeEnv)
    (stress_scores mental_scores emotion_scores : ScoreMap) (text : String) :
    AnalysisResponse :=
  let seg := apply_segment_max env.mentalLabels mental_scores env.segScore text
  let mental₁ := seg.1
  let chunk_max := seg.2
  let text_lower := strLower text
  let b := boost_suicidal_score mental₁ emotion_scores text_lower
  let mental₂ := b.scores
  if env.multiLabel then
    let flags := build_mental_flags env.threshold env.fallbackThreshold mental₂
      b.mentions_suicide b.boosted
    let suicidal_flagged := flags.any (fun kv => strLower kv.1 = "suicidal")
    let alert_metadata :=
      if suicidal_flagged then
        match encrypt_alert_text env.alertEnabled env.fernetAvailable env.sealFn
            text with
        | none => none
        | some art =>
          some { artifacts := art, suicidal_raw := b.raw,
                 suicidal_boosted := b.boosted, suicidal_chunk_max := chunk_max,
                 boost_reasons := b.reasons }
      else none
    { academic_stress := stress_scores, mental_health := mental₂,
      emotions := emotion_scores, mental_health_flags := some flags,
      alert_metadata := alert_metadata }
  else
    { academic_stress := stress_scores, mental_health := mental₂,
      emotions := emotion_scores, mental_health_flags := none,
      alert_metadata := none }

/-! ## History buffer (`record_analysis`) and the therapist dashboard view -/

/-- One history entry (`record_analysis` source lines 720-731).  The
wall-clock timestamp string is presentation-only and omitted; `high_risk`
is the truthiness of the alert metadata. -/
structure HistoryEntry where
  source : String
  student_id : String
  text : String
  academic_stress : ScoreMap
  mental_health : ScoreMap
  emotions : ScoreMap
  mental_health_flags : ScoreMap
  alert_metadata : Option AlertMetadata
  high_risk : Bool
deriving DecidableEq, Repr

/-- The entry built from one analysis result (`str(student_id or "N/A")`,
`result.get(...) or {}` defaults, `high_risk = bool(alert_metadata)`). -/
def history_entry_of (source text : String) (result : AnalysisResponse)
    (student_id : Option String) : HistoryEntry :=
  { source := source
    student_id := match student_id with
      | some s => if s = "" then "N/A" else s
      | none => "N/A"
    text := text
    academic_stress := result.academic_stress
    mental_health := result.mental_health
    emotions := result.emotions
    mental_health_flags := result.mental_health_flags.getD []
    alert_metadata := result.alert_metadata
    high_risk := result.alert_metadata.isSome }

/-- Model of `record_analysis`: append the entry, then pop the oldest entry when the
buffer exceeds `maxHistory` (`MAX_ANALYSIS_HISTORY`, default 50). -/
def record_analysis (maxHistory : Nat) (source text : String)
    (result : AnalysisResponse) (student_id : Option String)
    (recent : List HistoryEntry) : List HistoryEntry :=
  let h := recent ++ [history_entry_of source text result student_id]
  if maxHistory < h.length then h.drop 1 else h

/-- The dashboard selection of `/therapist` (source line 2008): first
responders see only entries with truthy alert metadata, everyone else sees
the whole buffer. -/
def therapist_view_entries (is_first_responder : Bool)
    (recent : List HistoryEntry) : List HistoryEntry :=
  recent.filter (fun e => !is_first_responder || e.alert_metadata.isSome)

/-! ## Roster ledger -/

/-- A roster row after `_load_roster_dataframe` parsing: the two status
columns parsed to booleans, the nine class-name cells as raw strings
(pandas renders a missing cell as `"nan"`), and the nine extra-credit cells
as the integers `_parse_extra_credit` yields (unparseable text yields 0;
integers round-trip exactly through the CSV write/read cycle). -/
structure StudentRow where
  student_id : String
  first_name : String
  last_name : String
  has_extra : Bool
  hipaa_consent : Bool
  classCells : Fin 9 → String
  ecCells : Fin 9 → Int

/-- The roster table, in file row order. -/
abbrev Roster := List StudentRow

/-- Model of `ROSTER_CLASS_COLUMNS`, in order; index `i` pairs with the extra-credit
column of the same index (`CLASS_TO_EXTRA_CREDIT`). -/
def ROSTER_CLASS_COLUMNS : List String :=
  ["class_one", "class_2", "class_3", "class_4", "class_5", "class_6",
   "class_7", "class_8", "extra_swipe"]

def EXTRA_SWIPE_DEFAULT_NAME : String := "Add one extra dining swipe"

/-- First row whose stripped student id equals `nid`
(`df.index[mask][0]` of `_get_student_row`). -/
def getFirst? : Roster → String → Option StudentRow
  | [], _ => none
  | r :: rest, nid =>
    if strTrim r.student_id = nid then some r else getFirst? rest nid

/-- Update the first row whose stripped student id equals `nid`
(the `df.at[roster_idx, ...]` writes followed by persisting the table). -/
def updateFirst : Roster → String → (StudentRow → StudentRow) → Roster
  | [], _, _ => []
  | r :: rest, nid, f =>
    if strTrim r.student_id = nid then f r :: rest
    else r :: updateFirst rest nid f

/-- The slot index of a normalized class key
(membership in `CLASS_TO_EXTRA_CREDIT`). -/
def classKeyIndex? : String → Option (Fin 9)
  | "class_one" => some 0
  | "class_2" => some 1
  | "class_3" => some 2
  | "class_4" => some 3
  | "class_5" => some 4
  | "class_6" => some 5
  | "class_7" => some 6
  | "class_8" => some 7
  | "extra_swipe" => some 8
  | _ => none

/-- Model of `_total_extra_credit`: the sum of the nine extra-credit cells. -/
def total_extra_credit (r : StudentRow) : Int :=
  ((List.finRange 9).map r.ecCells).sum

/-- A derived class entry (`_extract_class_entries` item). -/
structure ClassEntry where
  key : String
  name : String
  extra_credit_points : Int
deriving DecidableEq, Repr

/-- Model of `_extract_class_entries`: one entry per slot whose (stripped) name cell
is non-empty and not a "nan"/"none" placeholder; the `extra_swipe` slot gets
the default label when its cell is empty. -/
def extract_class_entries (r : StudentRow) : List ClassEntry :=
  (List.finRange 9).filterMap (fun i =>
    let class_col := ROSTER_CLASS_COLUMNS.getD i.val ""
    let name₀ := strTrim (r.classCells i)
    let name := if class_col = "extra_swipe" ∧ name₀ = "" then
        EXTRA_SWIPE_DEFAULT_NAME else name₀
    if name = "" then none
    else if strLower name = "nan" ∨ strLower name = "none" then none
    else some { key := class_col, name := name,
                extra_credit_points := r.ecCells i })

/-- The error taxonomy of the ledger operations (HTTP status and message
collapsed to the case). -/
inductive LedgerError
  | missingStudentId
  | studentNotFound
  | missingClassKey
  | invalidClassKey
  | pointsNotOne
  | alreadyClaimed
  | classNotFound
deriving DecidableEq, Repr

/-- The payload returned by a successful claim. -/
structure ClaimOutcome where
  class_key : String
  class_name : String
  points_awarded : Int
  total_points : Int
deriving DecidableEq, Repr

/-- The row mutation of a successful claim (`df.at[roster_idx, extra_col] =
new_total; df.at[roster_idx, "has_extra"] = True`). -/
def claimRowUpdate (idx : Fin 9) (new_total : Int) (r : StudentRow) :
    StudentRow :=
  { r with
    ecCells := fun j => if j = idx then new_total else r.ecCells j
    has_extra := true }

/-- The row mutation of a consent update
(`df.at[roster_idx, "hipaa_consent"] = bool(consent)`). -/
def consentRowUpdate (c : Bool) (r : StudentRow) : StudentRow :=
  { r with hipaa_consent := c }

/-- Model of `_increment_extra_credit` (source lines 1201-1248): validations in
source order, the already-claimed gate on `total ≥ 1 or has_extra`, then the
single-cell increment, flag set and table write-back. -/
def increment_extra_credit (df : Roster) (student_id class_key : String)
    (points : Int) : Except LedgerError (Roster × ClaimOutcome) :=
  let normalized := strTrim student_id
  if normalized = "" then .error .missingStudentId
  else
    match getFirst? df normalized with
    | none => .error .studentNotFound
    | some row =>
      let normalized_key := strLower (strTrim class_key)
      if normalized_key = "" then .error .missingClassKey
      else
        match classKeyIndex? normalized_key with
        | none => .error .invalidClassKey
        | some idx =>
          if points ≠ 1 then .error .pointsNotOne
          else if 1 ≤ total_extra_credit row ∨ row.has_extra = true then
            .error .alreadyClaimed
          else
            let class_name := strTrim (row.classCells idx)
            if class_name = "" then .error .classNotFound
            else
              let new_total := row.ecCells idx + points
              let df' := updateFirst df normalized (claimRowUpdate idx new_total)
              .ok (df', { class_key := normalized_key, class_name := class_name,
                          points_awarded := points, total_points := new_total })

/-- Model of `_set_student_consent`: locate the row, set the consent cell, persist. -/
def set_student_consent (df : Roster) (student_id : String) (consent : Bool) :
    Except LedgerError Roster :=
  let normalized := strTrim student_id
  if normalized = "" then .error .missingStudentId
  else
    match getFirst? df normalized with
    | none => .error .studentNotFound
    | some _ =>
      .ok (updateFirst df normalized (consentRowUpdate consent))

/-! ## Sequential ledger execution -/

/-- A ledger mutation, for reasoning about sequential operation sequences. -/
inductive LedgerOp
  | claim (sid key : String) (points : Int)
  | setConsent (sid : String) (granted : Bool)

/-- Run one operation; an error leaves the persisted table unchanged.  The
boolean records whether the operation was a successful claim. -/
def applyLedgerOp (df : Roster) : LedgerOp → Roster × Bool
  | .claim sid key points =>
    match increment_extra_credit df sid key points with
    | .ok (df', _) => (df', true)
    | .error _ => (df, false)
  | .setConsent sid granted =>
    match set_student_consent df sid granted with
    | .ok df' => (df', false)
    | .error _ => (df, false)

/-- Run a sequence of ledger operations. -/
def runLedgerOps (df : Roster) : List LedgerOp → Roster
  | [] => df
  | op :: rest => runLedgerOps (applyLedgerOp df op).1 rest

/-- The normalized student id an operation targets. -/
def ledgerOpTarget : LedgerOp → String
  | .claim sid _ _ => strTrim sid
  | .setConsent sid _ => strTrim sid

/-- Count the successful claims for normalized id `nid` along a run. -/
def countSuccessfulClaims (df : Roster) (nid : String) : List LedgerOp → Nat
  | [] => 0
  | op :: rest =>
    let step := applyLedgerOp df op
    (if step.2 ∧ ledgerOpTarget op = nid then 1 else 0) +
      countSuccessfulClaims step.1 nid rest

/-! ## The analyze endpoint -/

/-- Error taxonomy of `validate_student_id` and `analyze_endpoint`. -/
inductive ApiError
  | missingStudentId
  | rosterEmpty
  | studentNotRecognized
  | emptyText
  | consentMissing
  | tooFewWords
deriving DecidableEq, Repr

/-- The ids `_load_student_roster` indexes (stripped, non-empty). -/
def rosterIds (df : Roster) : List String :=
  (df.map (fun r => strTrim r.student_id)).filter (fun s => s ≠ "")

/-- Model of `validate_student_id`: empty-id check, empty-roster check, lookup. -/
def validate_student_id (df : Roster) (student_id : String) :
    Except ApiError String :=
  let normalized := strTrim student_id
  if normalized = "" then .error .missingStudentId
  else if rosterIds df = [] then .error .rosterEmpty
  else if normalized ∈ rosterIds df then .ok normalized
  else .error .studentNotRecognized

/-- The state and body a successful `/analyze` call produces. -/
structure AnalyzeOutcome where
  roster : Roster
  history : List HistoryEntry
  response : AnalysisResponse

/-- Model of `analyze_endpoint` (source lines 2347-2368): validate the student, strip
and validate the text, require consent and the minimum word count, set the
consent flag (ignoring a ledger failure, per the `try/except ... pass`),
analyze, and record the result. -/
def analyze_endpoint (env : AnalyzeEnv) (minWords maxHistory : Nat)
    (stress_scores mental_scores emotion_scores : ScoreMap)
    (df : Roster) (recent : List HistoryEntry)
    (student_id text : String) (consent : Bool) :
    Except ApiError AnalyzeOutcome :=
  match validate_student_id df student_id with
  | .error e => .error e
  | .ok _ =>
    let cleaned := strTrim text
    if cleaned = "" then .error .emptyText
    else if consent = false then .error .consentMissing
    else if word_count cleaned < minWords then .error .tooFewWords
    else
      let df' := match set_student_consent df student_id true with
        | .ok d => d
        | .error _ => df
      let result := analyze_student_text env stress_scores mental_scores
        emotion_scores cleaned
      let recent' := record_analysis maxHistory "api" cleaned result
        (some student_id) recent
      .ok { roster := df', history := recent', response := result }

/-! ## History runs (for the bounded-FIFO property) -/

/-- The request data of one recorded analysis. -/
abbrev HistoryItem := String × String × AnalysisResponse × Option String

/-- The entry an item produces. -/
def history_item_entry (it : HistoryItem) : HistoryEntry :=
  history_entry_of it.1 it.2.1 it.2.2.1 it.2.2.2

/-- Record a list of analyses into a history buffer. -/
def runHistory (maxHistory : Nat) (recent : List HistoryEntry)
    (items : List HistoryItem) : List HistoryEntry :=
  items.foldl
    (fun h it => record_analysis maxHistory it.1 it.2.1 it.2.2.1 it.2.2.2 h)
    recent

/-! # Helper lemmas

## Dictionary lemmas -/

theorem strLower_ci_target (m : ScoreMap) (fb : String) :
    strLower (ci_target_label m fb) = strLower fb := by
  unfold ci_target_label
  cases h : m.find? (fun kv => strLower kv.1 = strLower fb) with
  | none => rfl
  | some kv => simpa using List.find?_some h

theorem dictSet_cons_ne {kv : String × Score} {t : ScoreMap} {k : String}
    {v : Score} (h : ¬ kv.1 = k) :
    dictSet (kv :: t) k v = kv :: dictSet t k v := by
  unfold dictSet
  by_cases hany : t.any (fun kv2 => kv2.1 = k)
  · simp [List.any_cons, h, hany]
  · simp [List.any_cons, h, hany]

theorem mem_dictSet_self (m : ScoreMap) (k : String) (v : Score) :
    (k, v) ∈ dictSet m k v := by
  unfold dictSet
  split
  · next hany =>
    rw [List.any_eq_true] at hany
    obtain ⟨kv, hmem, hk⟩ := hany
    simp only [decide_eq_true_eq] at hk
    refine List.mem_map.mpr ⟨kv, hmem, ?_⟩
    simp [hk]
  · exact List.mem_append_right _ (by simp)

theorem mem_dictSet_of_ne {m : ScoreMap} {k l : String} {w v : Score}
    (hne : ¬ l = k) : (l, v) ∈ dictSet m k w ↔ (l, v) ∈ m := by
  unfold dictSet
  split
  · constructor
    · intro hmem
      obtain ⟨kv, hkv, heq⟩ := List.mem_map.mp hmem
      by_cases hk : kv.1 = k
      · rw [if_pos hk] at heq
        exact absurd (congrArg Prod.fst heq).symm (by simpa [hk] using hne)
      · rw [if_neg hk] at heq
        exact heq ▸ hkv
    · intro hmem
      refine List.mem_map.mpr ⟨(l, v), hmem, ?_⟩
      rw [if_neg hne]
  · constructor
    · intro hmem
      rcases List.mem_append.mp hmem with hl | hr
      · exact hl
      · simp only [List.mem_singleton, Prod.mk.injEq] at hr
        exact absurd hr.1 hne
    · intro hmem
      exact List.mem_append_left _ hmem

theorem eq_of_mem_dictSet_self {m : ScoreMap} {k : String} {w v : Score}
    (h : (k, v) ∈ dictSet m k w) : v = w := by
  unfold dictSet at h
  split at h
  · obtain ⟨kv, hkv, heq⟩ := List.mem_map.mp h
    by_cases hk : kv.1 = k
    · rw [if_pos hk] at heq
      exact (congrArg Prod.snd heq).symm
    · rw [if_neg hk] at heq
      rw [heq] at hk
      exact absurd rfl hk
  · next hany =>
    rcases List.mem_append.mp h with hl | hr
    · exact absurd (List.any_eq_true.mpr ⟨(k, v), hl, by simp⟩) hany
    · simp only [List.mem_singleton, Prod.mk.injEq] at hr
      exact hr.2

theorem find?_dictSet_ci_target (m : ScoreMap) (fb : String) (v : Score) :
    (dictSet m (ci_target_label m fb) v).find?
        (fun kv => strLower kv.1 = strLower fb) =
      some (ci_target_label m fb, v) := by
  induction m with
  | nil =>
    simp [ci_target_label, dictSet]
  | cons kv t ih =>
    by_cases h : strLower kv.1 = strLower fb
    · have htgt : ci_target_label (kv :: t) fb = kv.1 := by
        simp [ci_target_label, List.find?_cons_of_pos, h]
      rw [htgt]
      unfold dictSet
      rw [if_pos (by simp)]
      simp [h]
    · have htgt : ci_target_label (kv :: t) fb = ci_target_label t fb := by
        simp only [ci_target_label]
        rw [List.find?_cons_of_neg _ (by simpa using h)]
      rw [htgt]
      have hne : ¬ kv.1 = ci_target_label t fb := by
        intro he
        exact h (by rw [he]; exact strLower_ci_target t fb)
      rw [dictSet_cons_ne hne]
      rw [List.find?_cons_of_neg _ (by simpa using h)]
      exact ih

theorem get_ci_dictSet_ci_target (m : ScoreMap) (fb : String) (v : Score) :
    get_score_case_insensitive (dictSet m (ci_target_label m fb) v) fb = v := by
  unfold get_score_case_insensitive
  rw [find?_dictSet_ci_target]

theorem ci_target_dictSet_ci_target (m : ScoreMap) (fb : String) (v : Score) :
    ci_target_label (dictSet m (ci_target_label m fb) v) fb =
      ci_target_label m fb := by
  have h := find?_dictSet_ci_target m fb v
  simp only [ci_target_label] at h ⊢
  rw [h]

theorem get_score_exact_ci_target (m : ScoreMap) (fb : String) :
    get_score_exact m (ci_target_label m fb) =
      get_score_case_insensitive m fb := by
  induction m with
  | nil => rfl
  | cons kv t ih =>
    by_cases h : strLower kv.1 = strLower fb
    · have htgt : ci_target_label (kv :: t) fb = kv.1 := by
        simp [ci_target_label, List.find?_cons_of_pos, h]
      rw [htgt]
      unfold get_score_exact get_score_case_insensitive
      rw [List.find?_cons_of_pos _ (by simp), List.find?_cons_of_pos _ (by simpa using h)]
    · have htgt : ci_target_label (kv :: t) fb = ci_target_label t fb := by
        simp only [ci_target_label]
        rw [List.find?_cons_of_neg _ (by simpa using h)]
      rw [htgt]
      have hne : ¬ kv.1 = ci_target_label t fb := by
        intro he
        exact h (by rw [he]; exact strLower_ci_target t fb)
      unfold get_score_exact get_score_case_insensitive
      rw [List.find?_cons_of_neg _ (by simpa using hne),
        List.find?_cons_of_neg _ (by simpa using h)]
      exact ih

/-! ## Maximum-folding lemmas -/

theorem foldl_max_pull (a b : Score) (l : List Score) :
    l.foldl max (max a b) = max a (l.foldl max b) := by
  induction l generalizing b with
  | nil => rfl
  | cons c t ih =>
    simp only [List.foldl_cons]
    rw [max_assoc, ih]

theorem max_over_some (segScore : String → Score) (l : List String) (x : Score) :
    l.foldl (fun acc seg =>
        match acc with
        | none => some (segScore seg)
        | some m => some (max m (segScore seg))) (some x)
      = some ((l.map segScore).foldl max x) := by
  induction l generalizing x with
  | nil => rfl
  | cons s t ih =>
    simp only [List.foldl_cons, List.map_cons]
    exact ih (max x (segScore s))

theorem max_suicidal_over_segments_eq (segScore : String → Score)
    (text : String) :
    max_suicidal_over_segments segScore text =
      match segment_text text with
      | [] => none
      | s :: rest => some ((rest.map segScore).foldl max (segScore s)) := by
  unfold max_suicidal_over_segments
  cases h : segment_text text with
  | nil => rfl
  | cons s rest =>
    simp only [List.foldl_cons]
    exact max_over_some segScore rest (segScore s)

theorem get_label_index_ci_spec (labels : List String) (target : String)
    (i : Nat) (h : get_label_index_case_insensitive labels target = some i) :
    strLower (labels.getD i "") = strLower target := by
  induction labels generalizing i with
  | nil => exact Option.noConfusion h
  | cons l rest ih =>
    unfold get_label_index_case_insensitive at h
    split at h
    · next hl =>
      cases h
      simpa using hl
    · next hl =>
      cases hrec : get_label_index_case_insensitive rest target with
      | none => rw [hrec] at h; simp at h
      | some j =>
        rw [hrec] at h
        simp only [Option.map_some', Option.some.injEq] at h
        subst h
        simpa using ih j hrec

theorem get_ci_congr (m : ScoreMap) {l₁ l₂ : String}
    (h : strLower l₁ = strLower l₂) :
    get_score_case_insensitive m l₁ = get_score_case_insensitive m l₂ := by
  unfold get_score_case_insensitive
  simp only [h]

/-- C7: when the vocabulary has a "suicidal" label, the reported pre-boost
suicidal score equals the maximum of the whole-text score and the
per-segment scores (segments shorter than 20 characters are discarded by
`segment_text`); in particular, when segments exist it is
`max whole segmentMax`. -/
theorem claim_C7_segment_max (labels : List String) (ms : ScoreMap)
    (segScore : String → Score) (text : String) (idx : Nat)
    (h : get_label_index_case_insensitive labels "suicidal" = some idx) :
    get_score_case_insensitive
        (apply_segment_max labels ms segScore text).1 "suicidal"
      = ((segment_text text).map segScore).foldl max
          (get_score_case_insensitive ms "suicidal") ∧
    (∀ M, max_suicidal_over_segments segScore text = some M →
      get_score_case_insensitive
          (apply_segment_max labels ms segScore text).1 "suicidal"
        = max (get_score_case_insensitive ms "suicidal") M) := by
  have hfb : strLower (labels.getD idx "") = strLower "suicidal" :=
    get_label_index_ci_spec labels "suicidal" idx h
  unfold apply_segment_max
  rw [h]
  rcases hseg : max_suicidal_over_segments segScore text with _ | M
  · have hnil : segment_text text = [] := by
      rw [max_suicidal_over_segments_eq] at hseg
      cases hs : segment_text text with
      | nil => rfl
      | cons s rest => rw [hs] at hseg; simp at hseg
    constructor
    · rw [hnil]; rfl
    · intro M hM
      simp at hM
  · have hval : get_score_case_insensitive
        (dictSet ms (ci_target_label ms (labels.getD idx ""))
          (max (get_score_exact ms
            (ci_target_label ms (labels.getD idx ""))) M)) "suicidal"
        = max (get_score_case_insensitive ms "suicidal") M := by
      rw [get_ci_congr _ hfb.symm, get_ci_dictSet_ci_target,
        get_score_exact_ci_target, get_ci_congr ms hfb]
    constructor
    · have hcons := max_suicidal_over_segments_eq segScore text
      rw [hseg] at hcons
      cases hs : segment_text text with
      | nil => rw [hs] at hcons; simp at hcons
      | cons s rest =>
        rw [hs] at hcons
        simp only [Option.some.injEq] at hcons
        simp only [List.map_cons, List.foldl_cons]
        rw [foldl_max_pull, ← hcons]
        exact hval
    · intro M₂ hM₂
      cases hM₂
      exact hval

/-! ## Boosting lemmas -/

theorem boost_raw (ms es : ScoreMap) (tl : String) :
    (boost_suicidal_score ms es tl).raw =
      get_score_case_insensitive ms "suicidal" := rfl

theorem boost_boosted (ms es : ScoreMap) (tl : String) :
    (boost_suicidal_score ms es tl).boosted =
      max (get_score_case_insensitive ms "suicidal")
        (min 60 (boost_rule_candidate ms es tl)) := rfl

theorem boost_scores (ms es : ScoreMap) (tl : String) :
    (boost_suicidal_score ms es tl).scores =
      assign_score_case_insensitive ms "suicidal"
        (boost_suicidal_score ms es tl).boosted := rfl

theorem boost_mentions (ms es : ScoreMap) (tl : String) :
    (boost_suicidal_score ms es tl).mentions_suicide =
      mentions_suicide_in tl := rfl

/-- C2: the boosted suicidal score is bounded below by the raw score and
above by `max raw 60`, equals `max raw (min 60 candidate)` for the best rule
candidate, and a raw score above 60 passes through unmodified. -/
theorem claim_C2_boost_bounds (ms es : ScoreMap) (tl : String) :
    (boost_suicidal_score ms es tl).raw ≤ (boost_suicidal_score ms es tl).boosted ∧
    (boost_suicidal_score ms es tl).boosted ≤
      max (boost_suicidal_score ms es tl).raw 60 ∧
    (boost_suicidal_score ms es tl).boosted =
      max (boost_suicidal_score ms es tl).raw
        (min 60 (boost_rule_candidate ms es tl)) ∧
    (60 < (boost_suicidal_score ms es tl).raw →
      (boost_suicidal_score ms es tl).boosted =
        (boost_suicidal_score ms es tl).raw) := by
  rw [boost_boosted, boost_raw]
  refine ⟨le_max_left _ _,
    max_le (le_max_left _ _)
      (le_trans (min_le_left _ _) (le_max_right _ _)), rfl, ?_⟩
  intro hgt
  exact max_eq_left (le_trans (min_le_left _ _) (le_of_lt hgt))

/-- Witness for C2: a raw score of 70 passes through the boost unchanged. -/
theorem claim_C2_boost_bounds_witness :
    60 < (boost_suicidal_score [("suicidal", 70)] [] "").raw ∧
    (boost_suicidal_score [("suicidal", 70)] [] "").boosted =
      (boost_suicidal_score [("suicidal", 70)] [] "").raw :=
  ⟨by decide, (claim_C2_boost_bounds [("suicidal", 70)] [] "").2.2.2 (by decide)⟩

/-- The first boosting rule fires on a semantic-pattern hit with
co-occurring distress, so the pre-cap candidate is at least `raw + 10`. -/
theorem candidate_ge_of_pattern (ms es : ScoreMap) (tl : String)
    (hpat : patterns_hit_in tl ≠ [])
    (hco : 60 ≤ get_score_case_insensitive ms "depression" ∨
      70 ≤ get_score_case_insensitive ms "stress" ∨
      60 ≤ get_score_case_insensitive es "sadness" ∨
      70 ≤ get_score_case_insensitive es "fear") :
    get_score_case_insensitive ms "suicidal" + 10 ≤
      boost_rule_candidate ms es tl := by
  simp only [boost_rule_candidate]
  have h1 : (if patterns_hit_in tl ≠ [] ∧
        (60 ≤ get_score_case_insensitive ms "depression" ∨
          70 ≤ get_score_case_insensitive ms "stress" ∨
          60 ≤ get_score_case_insensitive es "sadness" ∨
          70 ≤ get_score_case_insensitive es "fear") then
        max (get_score_case_insensitive ms "suicidal")
          (get_score_case_insensitive ms "suicidal" + 10)
      else get_score_case_insensitive ms "suicidal") =
      max (get_score_case_insensitive ms "suicidal")
        (get_score_case_insensitive ms "suicidal" + 10) := if_pos ⟨hpat, hco⟩
  rw [h1]
  have key : get_score_case_insensitive ms "suicidal" + 10 ≤
      max (get_score_case_insensitive ms "suicidal")
        (get_score_case_insensitive ms "suicidal" + 10) := le_max_right _ _
  split
  · split
    · exact le_trans key (le_trans (le_max_left _ _) (le_max_left _ _))
    · exact le_trans key (le_max_left _ _)
  · split
    · exact le_trans key (le_max_left _ _)
    · exact key

/-- C4, corrected: only a semantic-pattern hit (not an explicit keyword
match) together with co-occurring distress guarantees the `raw + 10`
candidate, so the boosted score is at least `max raw (min 60 (raw + 10))`. -/
theorem claim_C4_amended_pattern_boost (ms es : ScoreMap) (tl : String)
    (hpat : patterns_hit_in tl ≠ [])
    (hco : 60 ≤ get_score_case_insensitive ms "depression" ∨
      70 ≤ get_score_case_insensitive ms "stress" ∨
      60 ≤ get_score_case_insensitive es "sadness" ∨
      70 ≤ get_score_case_insensitive es "fear") :
    max (boost_suicidal_score ms es tl).raw
        (min 60 ((boost_suicidal_score ms es tl).raw + 10)) ≤
      (boost_suicidal_score ms es tl).boosted := by
  rw [boost_boosted, boost_raw]
  refine max_le (le_max_left _ _) (le_trans ?_ (le_max_right _ _))
  exact min_le_min (le_refl 60) (candidate_ge_of_pattern ms es tl hpat hco)

/-- Witness for the corrected C4: the pattern "walk into traffic" with
depression at 60 forces the boost. -/
theorem claim_C4_amended_pattern_boost_witness :
    patterns_hit_in "walk into traffic" ≠ [] ∧
    (60 : Score) ≤
      get_score_case_insensitive [("depression", 60)] "depression" ∧
    max (boost_suicidal_score [("depression", 60)] [] "walk into traffic").raw
        (min 60
          ((boost_suicidal_score [("depression", 60)] [] "walk into traffic").raw
            + 10)) ≤
      (boost_suicidal_score [("depression", 60)] [] "walk into traffic").boosted :=
  ⟨by decide, by decide,
    claim_C4_amended_pattern_boost [("depression", 60)] [] "walk into traffic"
      (by decide) (Or.inl (by decide))⟩

/-- Counterexample to C4 as stated: the text "suicide" is an explicit
keyword match (not a semantic pattern), depression is 80 (co-occurring
distress), the raw score is 0, yet the boosted score stays 0 — strictly
below the `max raw (min 60 (raw + 10)) = 10` the claim promises. -/
theorem claim_C4_counterexample :
    mentions_suicide_in (strLower "suicide") = true ∧
    (60 : Score) ≤ get_score_case_insensitive
      [("suicidal", 0), ("depression", 80)] "depression" ∧
    ¬ (max (boost_suicidal_score
          [("suicidal", 0), ("depression", 80)] [] (strLower "suicide")).raw
        (min 60 ((boost_suicidal_score
          [("suicidal", 0), ("depression", 80)] [] (strLower "suicide")).raw
            + 10)) ≤
        (boost_suicidal_score
          [("suicidal", 0), ("depression", 80)] [] (strLower "suicide")).boosted) := by
  refine ⟨by decide, by decide, ?_⟩
  have hraw : (boost_suicidal_score
      [("suicidal", 0), ("depression", 80)] [] (strLower "suicide")).raw = 0 := by
    decide
  have hboosted : (boost_suicidal_score
      [("suicidal", 0), ("depression", 80)] [] (strLower "suicide")).boosted = 0 := by
    decide
  rw [hraw, hboosted]
  norm_num

/-! ## Alert sealing and flag-set lemmas -/

/-- C6: the sealing operation returns null exactly when alert encryption is
disabled by configuration or the encryption primitive is unavailable; in
that case a multi-label analysis with a suicidal flag still returns its
result (the embedding is a total function) carrying no alert record. -/
theorem claim_C6_sealing_degrade :
    (∀ (en fe : Bool) (sf : String → AlertArtifacts) (text : String),
      encrypt_alert_text en fe sf text = none ↔ ¬ (en = true ∧ fe = true)) ∧
    (∀ (env : AnalyzeEnv) (s m e : ScoreMap) (text : String) (flags : ScoreMap),
      env.multiLabel = true →
      ¬ (env.alertEnabled = true ∧ env.fernetAvailable = true) →
      (analyze_student_text env s m e text).mental_health_flags = some flags →
      flags.any (fun kv => strLower kv.1 = "suicidal") = true →
      (analyze_student_text env s m e text).alert_metadata = none) := by
  constructor
  · intro en fe sf text
    cases en <;> cases fe <;>
      simp [encrypt_alert_text, should_encrypt_alert]
  · intro env s m e text flags hml hoff _hflags _hany
    have hnone : encrypt_alert_text env.alertEnabled env.fernetAvailable
        env.sealFn text = none := by
      cases hen : env.alertEnabled with
      | false => simp [encrypt_alert_text, should_encrypt_alert]
      | true =>
        cases hfe : env.fernetAvailable with
        | false => simp [encrypt_alert_text, should_encrypt_alert]
        | true => exact absurd ⟨hen, hfe⟩ hoff
    simp only [analyze_student_text, hml, eq_self_iff_true, if_true]
    rw [hnone]
    split <;> rfl

/-- Witness for C6: with encryption disabled, sealing yields null and an
analysis whose flag set contains "suicidal" carries no alert record. -/
theorem claim_C6_sealing_degrade_witness :
    encrypt_alert_text false true (fun _ => ⟨"", "", ""⟩) "x" = none ∧
    (analyze_student_text
        ⟨[], fun _ => 0, true, 50, 70, false, false, fun _ => ⟨"", "", ""⟩⟩
        [] [("suicidal", 70)] [] "hello").alert_metadata = none :=
  ⟨(claim_C6_sealing_degrade.1 false true _ "x").mpr (by simp),
    claim_C6_sealing_degrade.2
      ⟨[], fun _ => 0, true, 50, 70, false, false, fun _ => ⟨"", "", ""⟩⟩
      [] [("suicidal", 70)] [] "hello" [("suicidal", 70)]
      rfl (by simp) (by decide) (by decide)⟩

theorem mem_build_mental_flags (θ fb : Score) (ms : ScoreMap) (mentions : Bool)
    (boosted : Score)
    (hall : ∀ v, (suicidal_label_of ms, v) ∈ ms → v = boosted)
    (hmem : (suicidal_label_of ms, boosted) ∈ ms) (l : String) :
    (∃ v, (l, v) ∈ build_mental_flags θ fb ms mentions boosted) ↔
      ((∃ v, (l, v) ∈ ms ∧ θ ≤ v) ∨
        (l = suicidal_label_of ms ∧
          fb ≤ get_score_case_insensitive ms "depression" ∧
          mentions = true)) := by
  have hfilter : ∀ v : Score, (l, v) ∈ ms.filter (fun kv => θ ≤ kv.2) ↔
      ((l, v) ∈ ms ∧ θ ≤ v) := by
    intro v
    rw [List.mem_filter]
    simp
  simp only [build_mental_flags]
  by_cases hl : l = suicidal_label_of ms
  · subst hl
    split
    · next hθ =>
      constructor
      · intro _
        exact Or.inl ⟨boosted, hmem, hθ⟩
      · intro _
        exact ⟨boosted, mem_dictSet_self _ _ _⟩
    · next hθ =>
      split
      · next hcond =>
        constructor
        · intro _
          exact Or.inr ⟨rfl, hcond.1, hcond.2⟩
        · intro _
          exact ⟨_, mem_dictSet_self _ _ _⟩
      · next hcond =>
        constructor
        · rintro ⟨v, hv⟩
          have hv' := (hfilter v).mp hv
          rw [hall v hv'.1] at hv'
          exact absurd hv'.2 hθ
        · rintro (⟨v, hvm, hvθ⟩ | ⟨-, hdep, hment⟩)
          · rw [hall v hvm] at hvθ
            exact absurd hvθ hθ
          · exact absurd ⟨hdep, hment⟩ hcond
  · have hstep : ∀ x : Score,
        (∃ v, (l, v) ∈ dictSet (ms.filter (fun kv => θ ≤ kv.2))
            (suicidal_label_of ms) x) ↔
          ((∃ v, (l, v) ∈ ms ∧ θ ≤ v) ∨
            (l = suicidal_label_of ms ∧
              fb ≤ get_score_case_insensitive ms "depression" ∧
              mentions = true)) := by
      intro x
      constructor
      · rintro ⟨v, hv⟩
        exact Or.inl ⟨v, (hfilter v).mp ((mem_dictSet_of_ne hl).mp hv)⟩
      · rintro (⟨v, hvm, hvθ⟩ | ⟨heq, -, -⟩)
        · exact ⟨v, (mem_dictSet_of_ne hl).mpr ((hfilter v).mpr ⟨hvm, hvθ⟩)⟩
        · exact absurd heq hl
    split
    · exact hstep _
    · split
      · exact hstep _
      · constructor
        · rintro ⟨v, hv⟩
          exact Or.inl ⟨v, (hfilter v).mp hv⟩
        · rintro (⟨v, hvm, hvθ⟩ | ⟨heq, -, -⟩)
          · exact ⟨v, (hfilter v).mpr ⟨hvm, hvθ⟩⟩
          · exact absurd heq hl

theorem analyze_multilabel_fields (env : AnalyzeEnv)
    (s m e : ScoreMap) (text : String) (hml : env.multiLabel = true) :
    (analyze_student_text env s m e text).mental_health =
      (boost_suicidal_score
        (apply_segment_max env.mentalLabels m env.segScore text).1 e
        (strLower text)).scores ∧
    (analyze_student_text env s m e text).mental_health_flags =
      some (build_mental_flags env.threshold env.fallbackThreshold
        (boost_suicidal_score
          (apply_segment_max env.mentalLabels m env.segScore text).1 e
          (strLower text)).scores
        (boost_suicidal_score
          (apply_segment_max env.mentalLabels m env.segScore text).1 e
          (strLower text)).mentions_suicide
        (boost_suicidal_score
          (apply_segment_max env.mentalLabels m env.segScore text).1 e
          (strLower text)).boosted) := by
  constructor <;> simp only [analyze_student_text, hml, eq_self_iff_true, if_true]

/-- C3: in multi-label mode a label is in the flag set iff its final
(post-boost) mental-health score reaches the active threshold, except that
the suicidal label is additionally force-included when depression reaches
the fallback threshold and the text contains an explicit suicidal keyword. -/
theorem claim_C3_flag_threshold (env : AnalyzeEnv)
    (stress mental emotion : ScoreMap) (text : String) (flags : ScoreMap)
    (hml : env.multiLabel = true)
    (hflags : (analyze_student_text env stress mental emotion text).mental_health_flags
      = some flags) (l : String) :
    (∃ v, (l, v) ∈ flags) ↔
      ((∃ v, (l, v) ∈
          (analyze_student_text env stress mental emotion text).mental_health ∧
          env.threshold ≤ v) ∨
        (l = suicidal_label_of
            (analyze_student_text env stress mental emotion text).mental_health ∧
          env.fallbackThreshold ≤ get_score_case_insensitive
            (analyze_student_text env stress mental emotion text).mental_health
            "depression" ∧
          mentions_suicide_in (strLower text) = true)) := by
  obtain ⟨hmh, hfl⟩ :=
    analyze_multilabel_fields env stress mental emotion text hml
  rw [hfl] at hflags
  rw [Option.some.injEq] at hflags
  subst hflags
  rw [hmh]
  have hslbl : suicidal_label_of
      (boost_suicidal_score
        (apply_segment_max env.mentalLabels mental env.segScore text).1 emotion
        (strLower text)).scores =
      ci_target_label
        (apply_segment_max env.mentalLabels mental env.segScore text).1
        "suicidal" :=
    ci_target_dictSet_ci_target _ "suicidal" _
  refine mem_build_mental_flags _ _ _ _ _ ?_ ?_ l
  · intro v hv
    rw [hslbl] at hv
    exact eq_of_mem_dictSet_self hv
  · rw [hslbl]
    exact mem_dictSet_self _ _ _

/-- Witness for C3: with threshold 50 and a boosted suicidal score of 70,
the suicidal label is in the flag set. -/
theorem claim_C3_flag_threshold_witness :
    (analyze_student_text
        ⟨[], fun _ => 0, true, 50, 70, false, false, fun _ => ⟨"", "", ""⟩⟩
        [] [("suicidal", 70)] [] "hello").mental_health_flags
      = some [("suicidal", 70)] ∧
    (∃ v, (("suicidal" : String), v) ∈ ([("suicidal", 70)] : ScoreMap)) :=
  ⟨by decide,
    (claim_C3_flag_threshold
      ⟨[], fun _ => 0, true, 50, 70, false, false, fun _ => ⟨"", "", ""⟩⟩
      [] [("suicidal", 70)] [] "hello" [("suicidal", 70)] rfl (by decide)
      "suicidal").mpr
      (Or.inl ⟨70, by decide, by decide⟩)⟩

/-- Witness for C7: a text with no long segments reports the whole-text
score unchanged. -/
theorem claim_C7_segment_max_witness :
    get_label_index_case_insensitive ["suicidal"] "suicidal" = some 0 ∧
    get_score_case_insensitive
        (apply_segment_max ["suicidal"] [("suicidal", 30)]
          (fun _ => (0 : Score)) "").1 "suicidal"
      = ((segment_text "").map (fun _ => (0 : Score))).foldl max
          (get_score_case_insensitive [("suicidal", 30)] "suicidal") :=
  ⟨by decide,
    (claim_C7_segment_max ["suicidal"] [("suicidal", 30)]
      (fun _ => (0 : Score)) "" 0 (by decide)).1⟩

/-! ## Roster ledger lemmas -/

theorem getFirst?_updateFirst_self (df : Roster) (nid : String)
    (f : StudentRow → StudentRow)
    (hf : ∀ r, strTrim (f r).student_id = strTrim r.student_id) :
    getFirst? (updateFirst df nid f) nid = (getFirst? df nid).map f := by
  induction df with
  | nil => rfl
  | cons r rest ih =>
    by_cases h : strTrim r.student_id = nid
    · simp [updateFirst, getFirst?, h, hf r]
    · simp [updateFirst, getFirst?, h, ih]

theorem getFirst?_updateFirst_ne (df : Roster) (nid mid : String)
    (f : StudentRow → StudentRow) (hne : nid ≠ mid)
    (hf : ∀ r, strTrim (f r).student_id = strTrim r.student_id) :
    getFirst? (updateFirst df mid f) nid = getFirst? df nid := by
  induction df with
  | nil => rfl
  | cons r rest ih =>
    by_cases h : strTrim r.student_id = mid
    · have hneq : ¬ strTrim r.student_id = nid := by
        intro hh
        rw [hh] at h
        exact hne h
      have hne' : ¬ mid = nid := fun hh => hne hh.symm
      simp [updateFirst, getFirst?, h, hf r, hneq, hne']
    · simp [updateFirst, getFirst?, h, ih]

theorem getFirst?_isSome_iff (df : Roster) (nid : String) :
    (∃ r, getFirst? df nid = some r) ↔ ∃ r ∈ df, strTrim r.student_id = nid := by
  induction df with
  | nil => simp [getFirst?]
  | cons r rest ih =>
    by_cases h : strTrim r.student_id = nid
    · simp only [getFirst?, if_pos h]
      constructor
      · intro _
        exact ⟨r, List.mem_cons_self r rest, h⟩
      · intro _
        exact ⟨r, rfl⟩
    · simp only [getFirst?, if_neg h]
      rw [ih]
      constructor
      · rintro ⟨x, hx, hxe⟩
        exact ⟨x, List.mem_cons_of_mem r hx, hxe⟩
      · rintro ⟨x, hx, hxe⟩
        rcases List.mem_cons.mp hx with rfl | hx'
        · exact absurd hxe h
        · exact ⟨x, hx', hxe⟩

theorem mem_rosterIds (df : Roster) (nid : String) :
    nid ∈ rosterIds df ↔ (nid ≠ "" ∧ ∃ r ∈ df, strTrim r.student_id = nid) := by
  unfold rosterIds
  rw [List.mem_filter, List.mem_map]
  constructor
  · rintro ⟨⟨r, hr, hmap⟩, hne⟩
    exact ⟨by simpa using hne, r, hr, hmap⟩
  · rintro ⟨hne, r, hr, heq⟩
    exact ⟨⟨r, hr, heq⟩, by simpa using hne⟩

theorem sum_map_ite (g : Fin 9 → Int) (idx : Fin 9) (v : Int) :
    ((List.finRange 9).map (fun j => if j = idx then v else g j)).sum =
      ((List.finRange 9).map g).sum + v - g idx := by
  have aux : ∀ l : List (Fin 9), idx ∈ l → l.Nodup →
      (l.map (fun j => if j = idx then v else g j)).sum =
        (l.map g).sum + v - g idx := by
    intro l
    induction l with
    | nil => intro h; simp at h
    | cons a t ih =>
      intro hmem hnodup
      rcases List.mem_cons.mp hmem with rfl | hmem'
      · simp only [List.map_cons, List.sum_cons, if_true, eq_self_iff_true]
        have hnotin : idx ∉ t := (List.nodup_cons.mp hnodup).1
        have hmap : t.map (fun j => if j = idx then v else g j) = t.map g := by
          apply List.map_congr_left
          intro j hj
          rw [if_neg]
          intro hji
          exact hnotin (hji ▸ hj)
        rw [hmap]
        omega
      · by_cases ha : a = idx
        · subst ha
          exact absurd hmem' (List.nodup_cons.mp hnodup).1
        · simp only [List.map_cons, List.sum_cons, if_neg ha]
          rw [ih hmem' (List.nodup_cons.mp hnodup).2]
          omega
  exact aux (List.finRange 9) (List.mem_finRange idx) (List.nodup_finRange 9)

theorem increment_ok_inv {df : Roster} {sid key : String} {points : Int}
    {df' : Roster} {out : ClaimOutcome}
    (h : increment_extra_credit df sid key points = .ok (df', out)) :
    strTrim sid ≠ "" ∧
    ∃ row idx, getFirst? df (strTrim sid) = some row ∧
      classKeyIndex? (strLower (strTrim key)) = some idx ∧
      points = 1 ∧
      ¬ (1 ≤ total_extra_credit row ∨ row.has_extra = true) ∧
      strTrim (row.classCells idx) ≠ "" ∧
      df' = updateFirst df (strTrim sid)
        (claimRowUpdate idx (row.ecCells idx + points)) := by
  simp only [increment_extra_credit] at h
  split at h
  · exact absurd h (by simp)
  · next hsid =>
    split at h
    · exact absurd h (by simp)
    · next row hrow =>
      split at h
      · exact absurd h (by simp)
      · next hkey =>
        split at h
        · exact absurd h (by simp)
        · next idx hidx =>
          split at h
          · exact absurd h (by simp)
          · next hpts =>
            split at h
            · exact absurd h (by simp)
            · next hclaim =>
              split at h
              · exact absurd h (by simp)
              · next hname =>
                rw [Except.ok.injEq, Prod.mk.injEq] at h
                exact ⟨hsid, row, idx, hrow, hidx, not_not.mp hpts, hclaim,
                  hname, h.1.symm⟩

theorem set_consent_ok (df : Roster) (sid : String) (c : Bool)
    (r : StudentRow) (hsid : strTrim sid ≠ "")
    (hr : getFirst? df (strTrim sid) = some r) :
    set_student_consent df sid c =
      .ok (updateFirst df (strTrim sid) (consentRowUpdate c)) := by
  unfold set_student_consent
  rw [if_neg hsid, hr]

theorem set_consent_ok_inv {df : Roster} {sid : String} {c : Bool} {d : Roster}
    (h : set_student_consent df sid c = .ok d) :
    d = updateFirst df (strTrim sid) (consentRowUpdate c) := by
  simp only [set_student_consent] at h
  split at h
  · exact absurd h (by simp)
  · split at h
    · exact absurd h (by simp)
    · rw [Except.ok.injEq] at h
      exact h.symm

/-! ## Ledger-run lemmas -/

theorem claimRowUpdate_id (idx : Fin 9) (v : Int) (r : StudentRow) :
    strTrim (claimRowUpdate idx v r).student_id = strTrim r.student_id := rfl

theorem consentRowUpdate_id (c : Bool) (r : StudentRow) :
    strTrim (consentRowUpdate c r).student_id = strTrim r.student_id := rfl

theorem applyLedgerOp_flag (df : Roster) (op : LedgerOp) (nid : String)
    (row : StudentRow) (h : getFirst? df nid = some row)
    (hf : row.has_extra = true) :
    ∃ row', getFirst? (applyLedgerOp df op).1 nid = some row' ∧
      row'.has_extra = true := by
  cases op with
  | claim sid key points =>
    cases hres : increment_extra_credit df sid key points with
    | error e => exact ⟨row, by simp only [applyLedgerOp, hres]; exact h, hf⟩
    | ok p =>
      obtain ⟨df', out⟩ := p
      obtain ⟨hsid, row₀, idx, hrow₀, hidx, hpts, hnc, hname, hdf⟩ :=
        increment_ok_inv hres
      by_cases heq : strTrim sid = nid
      · rw [heq, h, Option.some.injEq] at hrow₀
        subst hrow₀
        exact absurd (Or.inr hf) hnc
      · refine ⟨row, ?_, hf⟩
        simp only [applyLedgerOp, hres]
        rw [hdf, getFirst?_updateFirst_ne df nid (strTrim sid)
          (claimRowUpdate idx (row₀.ecCells idx + points))
          (fun hh => heq hh.symm) (claimRowUpdate_id idx _)]
        exact h
  | setConsent sid granted =>
    cases hres : set_student_consent df sid granted with
    | error e => exact ⟨row, by simp only [applyLedgerOp, hres]; exact h, hf⟩
    | ok d =>
      have hd := set_consent_ok_inv hres
      by_cases heq : strTrim sid = nid
      · refine ⟨consentRowUpdate granted row, ?_, hf⟩
        simp only [applyLedgerOp, hres]
        rw [hd, heq, getFirst?_updateFirst_self df nid
          (consentRowUpdate granted) (consentRowUpdate_id granted), h]
        rfl
      · refine ⟨row, ?_, hf⟩
        simp only [applyLedgerOp, hres]
        rw [hd, getFirst?_updateFirst_ne df nid (strTrim sid)
          (consentRowUpdate granted)
          (fun hh => heq hh.symm) (consentRowUpdate_id granted)]
        exact h

theorem total_claimRowUpdate (idx : Fin 9) (v : Int) (r : StudentRow) :
    total_extra_credit (claimRowUpdate idx v r) =
      total_extra_credit r + v - r.ecCells idx := by
  unfold total_extra_credit claimRowUpdate
  exact sum_map_ite r.ecCells idx v

theorem total_consentRowUpdate (c : Bool) (r : StudentRow) :
    total_extra_credit (consentRowUpdate c r) = total_extra_credit r := rfl

theorem applyLedgerOp_total (df : Roster) (op : LedgerOp) (nid : String)
    (row : StudentRow) (h : getFirst? df nid = some row)
    (ht : total_extra_credit row ≤ 1) :
    ∃ row', getFirst? (applyLedgerOp df op).1 nid = some row' ∧
      total_extra_credit row' ≤ 1 := by
  cases op with
  | claim sid key points =>
    cases hres : increment_extra_credit df sid key points with
    | error e => exact ⟨row, by simp only [applyLedgerOp, hres]; exact h, ht⟩
    | ok p =>
      obtain ⟨df', out⟩ := p
      obtain ⟨hsid, row₀, idx, hrow₀, hidx, hpts, hnc, hname, hdf⟩ :=
        increment_ok_inv hres
      by_cases heq : strTrim sid = nid
      · rw [heq, h, Option.some.injEq] at hrow₀
        subst hrow₀
        refine ⟨claimRowUpdate idx (row.ecCells idx + points) row, ?_, ?_⟩
        · simp only [applyLedgerOp, hres]
          rw [hdf, heq, getFirst?_updateFirst_self df nid
            (claimRowUpdate idx (row.ecCells idx + points))
            (claimRowUpdate_id idx _), h]
          rfl
        · rw [total_claimRowUpdate]
          have hlt : ¬ 1 ≤ total_extra_credit row := fun hh => hnc (Or.inl hh)
          omega
      · refine ⟨row, ?_, ht⟩
        simp only [applyLedgerOp, hres]
        rw [hdf, getFirst?_updateFirst_ne df nid (strTrim sid)
          (claimRowUpdate idx (row₀.ecCells idx + points))
          (fun hh => heq hh.symm) (claimRowUpdate_id idx _)]
        exact h
  | setConsent sid granted =>
    cases hres : set_student_consent df sid granted with
    | error e => exact ⟨row, by simp only [applyLedgerOp, hres]; exact h, ht⟩
    | ok d =>
      have hd := set_consent_ok_inv hres
      by_cases heq : strTrim sid = nid
      · refine ⟨consentRowUpdate granted row, ?_, ?_⟩
        · simp only [applyLedgerOp, hres]
          rw [hd, heq, getFirst?_updateFirst_self df nid
            (consentRowUpdate granted) (consentRowUpdate_id granted), h]
          rfl
        · rw [total_consentRowUpdate]
          exact ht
      · refine ⟨row, ?_, ht⟩
        simp only [applyLedgerOp, hres]
        rw [hd, getFirst?_updateFirst_ne df nid (strTrim sid)
          (consentRowUpdate granted)
          (fun hh => heq hh.symm) (consentRowUpdate_id granted)]
        exact h

theorem runLedgerOps_flag (nid : String) :
    ∀ (ops : List LedgerOp) (df : Roster) (row : StudentRow),
      getFirst? df nid = some row → row.has_extra = true →
      ∃ row', getFirst? (runLedgerOps df ops) nid = some row' ∧
        row'.has_extra = true := by
  intro ops
  induction ops with
  | nil => exact fun df row h hf => ⟨row, h, hf⟩
  | cons op rest ih =>
    intro df row h hf
    obtain ⟨row', h', hf'⟩ := applyLedgerOp_flag df op nid row h hf
    exact ih _ row' h' hf'

theorem runLedgerOps_total (nid : String) :
    ∀ (ops : List LedgerOp) (df : Roster) (row : StudentRow),
      getFirst? df nid = some row → total_extra_credit row ≤ 1 →
      ∃ row', getFirst? (runLedgerOps df ops) nid = some row' ∧
        total_extra_credit row' ≤ 1 := by
  intro ops
  induction ops with
  | nil => exact fun df row h ht => ⟨row, h, ht⟩
  | cons op rest ih =>
    intro df row h ht
    obtain ⟨row', h', ht'⟩ := applyLedgerOp_total df op nid row h ht
    exact ih _ row' h' ht'

theorem setConsent_snd_false (df : Roster) (sid : String) (granted : Bool) :
    (applyLedgerOp df (.setConsent sid granted)).2 = false := by
  cases hres : set_student_consent df sid granted <;>
    simp [applyLedgerOp, hres]

theorem claim_snd_false_of_flag (df : Roster) (sid key : String) (points : Int)
    (nid : String) (row : StudentRow) (h : getFirst? df nid = some row)
    (hf : row.has_extra = true) (hsid : strTrim sid = nid) :
    (applyLedgerOp df (.claim sid key points)).2 = false := by
  cases hres : increment_extra_credit df sid key points with
  | error e => simp [applyLedgerOp, hres]
  | ok p =>
    obtain ⟨df', out⟩ := p
    obtain ⟨-, row₀, idx, hrow₀, -, -, hnc, -, -⟩ := increment_ok_inv hres
    rw [hsid, h, Option.some.injEq] at hrow₀
    subst hrow₀
    exact absurd (Or.inr hf) hnc

theorem count_zero_of_flag (nid : String) :
    ∀ (ops : List LedgerOp) (df : Roster) (row : StudentRow),
      getFirst? df nid = some row → row.has_extra = true →
      countSuccessfulClaims df nid ops = 0 := by
  intro ops
  induction ops with
  | nil => intro df row _ _; rfl
  | cons op rest ih =>
    intro df row h hf
    obtain ⟨row', h', hf'⟩ := applyLedgerOp_flag df op nid row h hf
    have hind : (if (applyLedgerOp df op).2 = true ∧ ledgerOpTarget op = nid
        then 1 else 0) = 0 := by
      rw [if_neg]
      rintro ⟨hsnd, htgt⟩
      cases op with
      | claim sid key points =>
        rw [claim_snd_false_of_flag df sid key points nid row h hf htgt] at hsnd
        exact Bool.noConfusion hsnd
      | setConsent sid granted =>
        rw [setConsent_snd_false] at hsnd
        exact Bool.noConfusion hsnd
    simp only [countSuccessfulClaims]
    rw [hind, ih (applyLedgerOp df op).1 row' h' hf']

theorem count_le_one (nid : String) :
    ∀ (ops : List LedgerOp) (df : Roster),
      countSuccessfulClaims df nid ops ≤ 1 := by
  intro ops
  induction ops with
  | nil => intro df; exact Nat.zero_le 1
  | cons op rest ih =>
    intro df
    simp only [countSuccessfulClaims]
    by_cases hcond : (applyLedgerOp df op).2 = true ∧ ledgerOpTarget op = nid
    · rw [if_pos hcond]
      have hzero : countSuccessfulClaims (applyLedgerOp df op).1 nid rest = 0 := by
        cases op with
        | setConsent sid granted =>
          exact absurd hcond.1
            (by rw [setConsent_snd_false]; exact Bool.noConfusion)
        | claim sid key points =>
          cases hres : increment_extra_credit df sid key points with
          | error e =>
            have hfalse : (applyLedgerOp df (.claim sid key points)).2 = false := by
              simp [applyLedgerOp, hres]
            rw [hfalse] at hcond
            exact absurd hcond.1 Bool.noConfusion
          | ok p =>
            obtain ⟨df', out⟩ := p
            obtain ⟨hsid, row₀, idx, hrow₀, hidx, hpts, hnc, hname, hdf⟩ :=
              increment_ok_inv hres
            have htgt : strTrim sid = nid := hcond.2
            have hstep : (applyLedgerOp df (.claim sid key points)).1 = df' := by
              simp [applyLedgerOp, hres]
            rw [hstep]
            rw [htgt] at hrow₀
            have hflag : getFirst? df' nid =
                some (claimRowUpdate idx (row₀.ecCells idx + points) row₀) := by
              rw [hdf, htgt, getFirst?_updateFirst_self df nid
                (claimRowUpdate idx (row₀.ecCells idx + points))
                (claimRowUpdate_id idx _), hrow₀]
              rfl
            exact count_zero_of_flag nid rest df' _ hflag rfl
      rw [hzero]
    · rw [if_neg hcond, Nat.zero_add]
      exact ih (applyLedgerOp df op).1

theorem increment_already_claimed (df : Roster) (sid key : String)
    (points : Int) (row : StudentRow) (idx : Fin 9)
    (hsid : strTrim sid ≠ "") (hrow : getFirst? df (strTrim sid) = some row)
    (hidx : classKeyIndex? (strLower (strTrim key)) = some idx)
    (hpts : points = 1)
    (hclaimed : 1 ≤ total_extra_credit row ∨ row.has_extra = true) :
    increment_extra_credit df sid key points = .error .alreadyClaimed := by
  have hkeyne : ¬ strLower (strTrim key) = "" := by
    intro hh
    rw [hh] at hidx
    exact Option.noConfusion hidx
  simp only [increment_extra_credit, if_neg hsid, hrow, if_neg hkeyne, hidx,
    if_neg (not_not.mpr hpts), if_pos hclaimed]

/-- C1: the extra-credit claim fails with AlreadyClaimed whenever the
student's total extra credit is at least 1 or the flag is set (and can never
succeed in that state); a success increments exactly one extra-credit column
by 1, sets the flag, and raises the total by exactly 1; under sequential
execution at most one claim per student ever succeeds; a persisted total of
at most 1 stays at most 1; and the flag, once true, never reverts through
any ledger operation. -/
theorem claim_C1_claim_once_invariants :
    (∀ (df : Roster) (sid key : String) (points : Int) (row : StudentRow)
        (idx : Fin 9),
      strTrim sid ≠ "" → getFirst? df (strTrim sid) = some row →
      classKeyIndex? (strLower (strTrim key)) = some idx → points = 1 →
      (1 ≤ total_extra_credit row ∨ row.has_extra = true) →
      increment_extra_credit df sid key points = .error .alreadyClaimed) ∧
    (∀ (df : Roster) (sid key : String) (points : Int) (row : StudentRow),
      getFirst? df (strTrim sid) = some row →
      (1 ≤ total_extra_credit row ∨ row.has_extra = true) →
      ∀ res, increment_extra_credit df sid key points ≠ .ok res) ∧
    (∀ (df : Roster) (sid key : String) (points : Int) (df' : Roster)
        (out : ClaimOutcome) (row : StudentRow),
      getFirst? df (strTrim sid) = some row →
      increment_extra_credit df sid key points = .ok (df', out) →
      ∃ idx row', classKeyIndex? (strLower (strTrim key)) = some idx ∧
        getFirst? df' (strTrim sid) = some row' ∧
        row'.ecCells idx = row.ecCells idx + 1 ∧
        (∀ j, j ≠ idx → row'.ecCells j = row.ecCells j) ∧
        row'.has_extra = true ∧
        total_extra_credit row' = total_extra_credit row + 1) ∧
    (∀ (df : Roster) (nid : String) (ops : List LedgerOp),
      countSuccessfulClaims df nid ops ≤ 1) ∧
    (∀ (df : Roster) (nid : String) (row : StudentRow) (ops : List LedgerOp),
      getFirst? df nid = some row → total_extra_credit row ≤ 1 →
      ∃ row', getFirst? (runLedgerOps df ops) nid = some row' ∧
        total_extra_credit row' ≤ 1) ∧
    (∀ (df : Roster) (nid : String) (row : StudentRow) (ops : List LedgerOp),
      getFirst? df nid = some row → row.has_extra = true →
      ∃ row', getFirst? (runLedgerOps df ops) nid = some row' ∧
        row'.has_extra = true) := by
  refine ⟨increment_already_claimed, ?_, ?_,
    fun df nid ops => count_le_one nid ops df,
    fun df nid row ops h ht => runLedgerOps_total nid ops df row h ht,
    fun df nid row ops h hf => runLedgerOps_flag nid ops df row h hf⟩
  · intro df sid key points row hrow hclaimed res hok
    obtain ⟨df', out⟩ := res
    obtain ⟨-, row₀, idx, hrow₀, -, -, hnc, -, -⟩ := increment_ok_inv hok
    rw [hrow, Option.some.injEq] at hrow₀
    subst hrow₀
    exact hnc hclaimed
  · intro df sid key points df' out row hrow hok
    obtain ⟨hsid, row₀, idx, hrow₀, hidx, hpts, hnc, hname, hdf⟩ :=
      increment_ok_inv hok
    rw [hrow, Option.some.injEq] at hrow₀
    subst hrow₀
    refine ⟨idx, claimRowUpdate idx (row.ecCells idx + points) row,
      hidx, ?_, ?_, ?_, rfl, ?_⟩
    · rw [hdf, getFirst?_updateFirst_self df (strTrim sid)
        (claimRowUpdate idx (row.ecCells idx + points))
        (claimRowUpdate_id idx _), hrow]
      rfl
    · simp [claimRowUpdate, hpts]
    · intro j hj
      simp [claimRowUpdate, hj]
    · rw [total_claimRowUpdate, hpts]
      omega

/-- Witness for C1: a student whose flag is already set gets
AlreadyClaimed, and successful claims along any run number at most one. -/
theorem claim_C1_claim_once_invariants_witness :
    increment_extra_credit
        [⟨"900", "A", "B", true, false, fun _ => "Math", fun _ => 0⟩]
        "900" "class_one" 1 = .error .alreadyClaimed ∧
    countSuccessfulClaims
        [⟨"900", "A", "B", true, false, fun _ => "Math", fun _ => 0⟩]
        "900" [] ≤ 1 :=
  ⟨claim_C1_claim_once_invariants.1
      [⟨"900", "A", "B", true, false, fun _ => "Math", fun _ => 0⟩]
      "900" "class_one" 1
      ⟨"900", "A", "B", true, false, fun _ => "Math", fun _ => 0⟩ 0
      (by decide) rfl (by decide) rfl (Or.inr rfl),
    claim_C1_claim_once_invariants.2.2.2.1
      [⟨"900", "A", "B", true, false, fun _ => "Math", fun _ => 0⟩] "900" []⟩

/-- C10: for a student whose extra_swipe name cell is empty,
`_extract_class_entries` (hence validateStudent) lists an extra_swipe entry
with the default label, yet the claim path — which reads the raw cell and
never applies the default — can never succeed for that key, and under
no-prior-claim conditions fails precisely with the class-not-found error. -/
theorem claim_C10_extra_swipe_mismatch (df : Roster) (sid : String)
    (row : StudentRow)
    (hrow : getFirst? df (strTrim sid) = some row)
    (hcell : strTrim (row.classCells 8) = "") :
    (∃ e ∈ extract_class_entries row,
      e.key = "extra_swipe" ∧ e.name = EXTRA_SWIPE_DEFAULT_NAME) ∧
    (∀ (points : Int) (res : Roster × ClaimOutcome),
      increment_extra_credit df sid "extra_swipe" points ≠ .ok res) ∧
    (strTrim sid ≠ "" → total_extra_credit row < 1 → row.has_extra = false →
      increment_extra_credit df sid "extra_swipe" 1 =
        .error .classNotFound) := by
  refine ⟨?_, ?_, ?_⟩
  · refine ⟨⟨"extra_swipe", EXTRA_SWIPE_DEFAULT_NAME, row.ecCells 8⟩,
      List.mem_filterMap.mpr ⟨8, List.mem_finRange _, ?_⟩, rfl, rfl⟩
    simp only [extract_class_entries, hcell]
    rfl
  · intro points res hok
    obtain ⟨df', out⟩ := res
    obtain ⟨-, row₀, idx, hrow₀, hidx, -, -, hname, -⟩ := increment_ok_inv hok
    rw [hrow, Option.some.injEq] at hrow₀
    subst hrow₀
    have h8 : classKeyIndex? (strLower (strTrim "extra_swipe")) = some 8 := by
      decide
    rw [h8, Option.some.injEq] at hidx
    subst hidx
    exact hname hcell
  · intro hsid hlt hflag
    have hnc : ¬ (1 ≤ total_extra_credit row ∨ row.has_extra = true) := by
      rintro (h | h)
      · omega
      · rw [hflag] at h
        exact Bool.noConfusion h
    simp only [increment_extra_credit, if_neg hsid, hrow,
      if_neg (show ¬ strLower (strTrim "extra_swipe") = "" by decide),
      (show classKeyIndex? (strLower (strTrim "extra_swipe")) = some 8 by decide),
      if_neg (not_not.mpr rfl), if_neg hnc, hcell, eq_self_iff_true, if_true]

/-- Witness for C10: a concrete row with an empty extra_swipe cell. -/
theorem claim_C10_extra_swipe_mismatch_witness :
    (∃ e ∈ extract_class_entries
        ⟨"900", "A", "B", false, false, fun _ => "", fun _ => 0⟩,
      e.key = "extra_swipe" ∧ e.name = EXTRA_SWIPE_DEFAULT_NAME) ∧
    increment_extra_credit
        [⟨"900", "A", "B", false, false, fun _ => "", fun _ => 0⟩]
        "900" "extra_swipe" 1 = .error .classNotFound :=
  ⟨(claim_C10_extra_swipe_mismatch
      [⟨"900", "A", "B", false, false, fun _ => "", fun _ => 0⟩] "900"
      ⟨"900", "A", "B", false, false, fun _ => "", fun _ => 0⟩
      rfl (by decide)).1,
   (claim_C10_extra_swipe_mismatch
      [⟨"900", "A", "B", false, false, fun _ => "", fun _ => 0⟩] "900"
      ⟨"900", "A", "B", false, false, fun _ => "", fun _ => 0⟩
      rfl (by decide)).2.2 (by decide) (by decide) rfl⟩

theorem validate_ok_inv {df : Roster} {sid n : String}
    (h : validate_student_id df sid = .ok n) :
    strTrim sid ≠ "" ∧ strTrim sid ∈ rosterIds df ∧ n = strTrim sid := by
  simp only [validate_student_id] at h
  split at h
  · exact absurd h (by simp)
  · next h1 =>
    split at h
    · exact absurd h (by simp)
    · split at h
      · next h3 =>
        rw [Except.ok.injEq] at h
        exact ⟨h1, h3, h.symm⟩
      · exact absurd h (by simp)

/-- C5: a successful `/analyze` call requires `consent = true` and leaves
the student's stored consent flag true in the persisted roster, whatever it
was before. -/
theorem claim_C5_consent_side_effect (env : AnalyzeEnv)
    (minWords maxHistory : Nat) (stress mental emotion : ScoreMap)
    (df : Roster) (recent : List HistoryEntry) (sid text : String)
    (consent : Bool) (out : AnalyzeOutcome)
    (h : analyze_endpoint env minWords maxHistory stress mental emotion df
      recent sid text consent = .ok out) :
    consent = true ∧
    ∃ row, getFirst? out.roster (strTrim sid) = some row ∧
      row.hipaa_consent = true := by
  simp only [analyze_endpoint] at h
  split at h
  · exact absurd h (by simp)
  · next x hval =>
    split at h
    · exact absurd h (by simp)
    · next htext =>
      split at h
      · exact absurd h (by simp)
      · next hconsF =>
        split at h
        · exact absurd h (by simp)
        · next hwords =>
          obtain ⟨hsid, hmem, -⟩ := validate_ok_inv hval
          obtain ⟨r, hr⟩ := (getFirst?_isSome_iff df (strTrim sid)).mpr
            ((mem_rosterIds df (strTrim sid)).mp hmem).2
          have hset := set_consent_ok df sid true r hsid hr
          simp only [hset] at h
          rw [Except.ok.injEq] at h
          have hcons : consent = true := by
            cases consent with
            | false => exact absurd rfl hconsF
            | true => rfl
          have hro : out.roster =
              updateFirst df (strTrim sid) (consentRowUpdate true) := by
            rw [← h]
          refine ⟨hcons, consentRowUpdate true r, ?_, rfl⟩
          rw [hro, getFirst?_updateFirst_self df (strTrim sid)
            (consentRowUpdate true) (consentRowUpdate_id true), hr]
          rfl

/-- Witness for C5: a concrete successful analyze call flips the stored
consent flag from false to true. -/
theorem claim_C5_consent_side_effect_witness :
    analyze_endpoint
        ⟨[], fun _ => 0, false, 50, 70, false, false, fun _ => ⟨"", "", ""⟩⟩
        1 5 [] [] [] [⟨"s1", "A", "B", false, false, fun _ => "", fun _ => 0⟩]
        [] "s1" "hello" true
      = .ok ⟨[⟨"s1", "A", "B", false, true, fun _ => "", fun _ => 0⟩],
          [⟨"api", "s1", "hello", [], [("suicidal", 0)], [], [], none, false⟩],
          ⟨[], [("suicidal", 0)], [], none, none⟩⟩ ∧
    (true = true ∧
      ∃ row, getFirst?
          ((⟨[⟨"s1", "A", "B", false, true, fun _ => "", fun _ => 0⟩],
            [⟨"api", "s1", "hello", [], [("suicidal", 0)], [], [], none, false⟩],
            ⟨[], [("suicidal", 0)], [], none, none⟩⟩ : AnalyzeOutcome).roster)
          (strTrim "s1") = some row ∧
        row.hipaa_consent = true) :=
  ⟨rfl,
    claim_C5_consent_side_effect
      ⟨[], fun _ => 0, false, 50, 70, false, false, fun _ => ⟨"", "", ""⟩⟩
      1 5 [] [] [] [⟨"s1", "A", "B", false, false, fun _ => "", fun _ => 0⟩]
      [] "s1" "hello" true
      ⟨[⟨"s1", "A", "B", false, true, fun _ => "", fun _ => 0⟩],
        [⟨"api", "s1", "hello", [], [("suicidal", 0)], [], [], none, false⟩],
        ⟨[], [("suicidal", 0)], [], none, none⟩⟩
      rfl⟩

/-! ## History buffer lemmas -/

theorem rtake_of_length_le {α : Type} {l : List α} {n : Nat}
    (h : l.length ≤ n) : l.rtake n = l := by
  simp [List.rtake, Nat.sub_eq_zero_of_le h]

theorem length_rtake {α : Type} (l : List α) (n : Nat) :
    (l.rtake n).length = min n l.length := by
  simp only [List.rtake, List.length_drop]
  omega

theorem record_analysis_rtake (N : Nat) (src txt : String)
    (res : AnalysisResponse) (stid : Option String)
    (es : List HistoryEntry) :
    record_analysis N src txt res stid (es.rtake N) =
      (es ++ [history_entry_of src txt res stid]).rtake N := by
  rcases N with _ | n
  · rw [List.rtake_zero, List.rtake_zero]
    simp [record_analysis]
  · rw [List.rtake_concat_succ]
    by_cases hle : es.length ≤ n
    · have hle1 : es.length ≤ n + 1 := le_trans hle (Nat.le_succ n)
      rw [rtake_of_length_le hle1, rtake_of_length_le hle]
      simp only [record_analysis]
      rw [if_neg]
      simp only [List.length_append, List.length_cons, List.length_nil]
      omega
    · push_neg at hle
      simp only [record_analysis]
      rw [if_pos]
      · rw [List.drop_append_eq_append_drop]
        have hlen : (es.rtake (n + 1)).length = n + 1 := by
          rw [length_rtake]
          omega
        rw [hlen]
        have hdd : (es.rtake (n + 1)).drop 1 = es.rtake n := by
          simp only [List.rtake, List.drop_drop]
          congr 1
          omega
        rw [hdd]
        simp
      · rw [List.length_append, length_rtake]
        simp only [List.length_cons, List.length_nil]
        omega

theorem runHistory_rtake (N : Nat) :
    ∀ (items : List HistoryItem) (es : List HistoryEntry),
      runHistory N (es.rtake N) items =
        (es ++ items.map history_item_entry).rtake N := by
  intro items
  induction items with
  | nil => intro es; simp [runHistory]
  | cons it rest ih =>
    intro es
    simp only [runHistory, List.foldl_cons, List.map_cons]
    rw [show record_analysis N it.1 it.2.1 it.2.2.1 it.2.2.2 (es.rtake N) =
        (es ++ [history_item_entry it]).rtake N from
      record_analysis_rtake N it.1 it.2.1 it.2.2.1 it.2.2.2 es]
    have hih := ih (es ++ [history_item_entry it])
    simp only [runHistory] at hih
    rw [hih, List.append_assoc, List.singleton_append]

/-- C8: the in-memory history is a bounded FIFO: recording keeps the buffer
at or below the configured capacity, an append that would exceed it evicts
exactly the oldest entry, and starting from an empty buffer the history
always equals the most recent N recorded entries in insertion order. -/
theorem claim_C8_bounded_fifo :
    (∀ (N : Nat) (src txt : String) (res : AnalysisResponse)
        (stid : Option String) (recent : List HistoryEntry),
      recent.length ≤ N →
      (record_analysis N src txt res stid recent).length ≤ N) ∧
    (∀ (N : Nat) (src txt : String) (res : AnalysisResponse)
        (stid : Option String) (recent : List HistoryEntry),
      N < recent.length + 1 →
      record_analysis N src txt res stid recent =
        (recent ++ [history_entry_of src txt res stid]).drop 1) ∧
    (∀ (N : Nat) (src txt : String) (res : AnalysisResponse)
        (stid : Option String) (recent : List HistoryEntry),
      recent.length < N →
      record_analysis N src txt res stid recent =
        recent ++ [history_entry_of src txt res stid]) ∧
    (∀ (N : Nat) (items : List HistoryItem),
      runHistory N [] items = (items.map history_item_entry).rtake N) := by
  refine ⟨?_, ?_, ?_, ?_⟩
  · intro N src txt res stid recent hlen
    simp only [record_analysis]
    split
    · next hgt =>
      simp only [List.length_drop, List.length_append, List.length_cons,
        List.length_nil] at hgt ⊢
      omega
    · next hgt =>
      simp only [List.length_append, List.length_cons, List.length_nil] at hgt ⊢
      omega
  · intro N src txt res stid recent hgt
    simp only [record_analysis]
    rw [if_pos]
    simp only [List.length_append, List.length_cons, List.length_nil]
    omega
  · intro N src txt res stid recent hlt
    simp only [record_analysis]
    rw [if_neg]
    simp only [List.length_append, List.length_cons, List.length_nil]
    omega
  · intro N items
    have h := runHistory_rtake N items []
    rw [List.rtake_nil] at h
    rw [h, List.nil_append]

/-- Witness for C8: recording into an empty two-slot buffer stays within
bounds, and with capacity zero the single append is immediately evicted. -/
theorem claim_C8_bounded_fifo_witness :
    (record_analysis 2 "api" "t" ⟨[], [], [], none, none⟩ none []).length ≤ 2 ∧
    record_analysis 0 "api" "t" ⟨[], [], [], none, none⟩ none [] =
      (([] : List HistoryEntry) ++
        [history_entry_of "api" "t" ⟨[], [], [], none, none⟩ none]).drop 1 :=
  ⟨claim_C8_bounded_fifo.1 2 "api" "t" ⟨[], [], [], none, none⟩ none []
      (by decide),
    claim_C8_bounded_fifo.2.1 0 "api" "t" ⟨[], [], [], none, none⟩ none []
      (by decide)⟩

/-- C9: when sealing produced no alert, the recorded entry has
`high_risk = false` and empty alert metadata even though its flag map still
contains "suicidal"; the first-responder dashboard filter excludes it while
the unrestricted view keeps the whole buffer. -/
theorem claim_C9_unsealed_entry_visibility (res : AnalysisResponse)
    (src txt : String) (stid : Option String) (N : Nat)
    (recent : List HistoryEntry)
    (halert : res.alert_metadata = none)
    (hflag : (res.mental_health_flags.getD []).any
      (fun kv => strLower kv.1 = "suicidal") = true)
    (hN : 1 ≤ N) :
    (history_entry_of src txt res stid).high_risk = false ∧
    (history_entry_of src txt res stid).alert_metadata = none ∧
    (history_entry_of src txt res stid).mental_health_flags.any
      (fun kv => strLower kv.1 = "suicidal") = true ∧
    history_entry_of src txt res stid ∈
      record_analysis N src txt res stid recent ∧
    therapist_view_entries false (record_analysis N src txt res stid recent) =
      record_analysis N src txt res stid recent ∧
    (∀ e ∈ therapist_view_entries true
        (record_analysis N src txt res stid recent),
      e.alert_metadata.isSome = true) ∧
    history_entry_of src txt res stid ∉
      therapist_view_entries true (record_analysis N src txt res stid recent) := by
  refine ⟨by simp [history_entry_of, halert], by simp [history_entry_of, halert],
    by simpa [history_entry_of] using hflag, ?_, ?_, ?_, ?_⟩
  · simp only [record_analysis]
    split
    · next hgt =>
      simp only [List.length_append, List.length_cons, List.length_nil] at hgt
      rw [List.drop_append_eq_append_drop]
      refine List.mem_append_right _ ?_
      have : 1 - recent.length = 0 := by omega
      rw [this]
      exact List.mem_cons_self _ _
    · exact List.mem_append_right _ (List.mem_cons_self _ _)
  · simp [therapist_view_entries]
  · intro e he
    have := (List.mem_filter.mp he).2
    simpa using this
  · intro hmem
    have := (List.mem_filter.mp hmem).2
    simp [history_entry_of, halert] at this

/-- Witness for C9: a response with a suicidal flag but no alert record. -/
theorem claim_C9_unsealed_entry_visibility_witness :
    ((⟨[], [], [], some [("suicidal", 70)], none⟩ :
        AnalysisResponse).alert_metadata = none) ∧
    (history_entry_of "api" "t"
        ⟨[], [], [], some [("suicidal", 70)], none⟩ none).high_risk = false ∧
    history_entry_of "api" "t" ⟨[], [], [], some [("suicidal", 70)], none⟩ none ∉
      therapist_view_entries true
        (record_analysis 1 "api" "t"
          ⟨[], [], [], some [("suicidal", 70)], none⟩ none []) :=
  ⟨rfl,
    (claim_C9_unsealed_entry_visibility
      ⟨[], [], [], some [("suicidal", 70)], none⟩ "api" "t" none 1 []
      rfl (by decide) (by decide)).1,
    (claim_C9_unsealed_entry_visibility
      ⟨[], [], [], some [("suicidal", 70)], none⟩ "api" "t" none 1 []
      rfl (by decide) (by decide)).2.2.2.2.2.2⟩

end StudentHealth
